import Mathlib

/-!
Verification of the word-to-visual content generator ("Find It" game).

This file gives a shallow embedding of the runtime query engine
(`src/lib/emoji-data.ts`, `src/lib/audio.ts` — lookup maps, the visual
similarity oracle, the local content generator, the generative-fallback
corrector) and of the offline database build pipeline
(`src/scripts/generate-emoji-data.ts`), together with theorems settling
the specification claims about them.

The compiled emoji database (`lib/emoji-data.generated.ts`) is build
output which is not part of the checked sources, so all runtime
functions are parameterised by the database `db`; the uniform shuffle
utility (`lib/shuffle.ts`, explicitly excluded from the core by the
spec) is parameterised as an arbitrary permutation-producing function.
-/

namespace FindIt

/-- Runtime shape of one emoji entry (`EmojiItem` in `src/lib/emoji-data.ts`). -/
structure EmojiItem where
  names : List String
  keywords : List String
  emoji : String
deriving DecidableEq, Repr

/-- One category block of the compiled database (`EmojiCategory`). -/
structure EmojiCategory where
  category : String
  items : List EmojiItem
deriving DecidableEq, Repr

/-- The compiled database as loaded at process start: ordered category list. -/
abbrev Database := List EmojiCategory

/-- `normalizeEmoji` from `emoji-data.ts`: strip the variation selectors
U+FE0E and U+FE0F (`emoji.replace(/[︎️]/g, "")`). -/
def normalizeEmoji (emoji : String) : String :=
  ⟨emoji.data.filter (fun c => c ≠ Char.ofNat 0xFE0E ∧ c ≠ Char.ofNat 0xFE0F)⟩

/-- JavaScript `toLowerCase()`, modelled character-wise. -/
def jsToLower (s : String) : String :=
  ⟨s.data.map Char.toLower⟩

/-- JavaScript `trim()`: drop whitespace from both ends. -/
def jsTrim (s : String) : String :=
  ⟨(((s.data.dropWhile Char.isWhitespace).reverse).dropWhile Char.isWhitespace).reverse⟩

/-- JavaScript `startsWith`. -/
def jsStartsWith (s pre : String) : Bool :=
  pre.data.isPrefixOf s.data

/-- JavaScript `endsWith`. -/
def jsEndsWith (s suf : String) : Bool :=
  suf.data.isSuffixOf s.data

/-- JavaScript `slice(0, -n)`: all but the last `n` characters. -/
def jsDropRight (s : String) (n : Nat) : String :=
  ⟨s.data.take (s.data.length - n)⟩

/-- `normalizeName` from `emoji-data.ts`: `name.toLowerCase().trim()`. -/
def normalizeName (name : String) : String :=
  jsTrim (jsToLower name)

/-- The flattened item list in database order (the `allItems` array built at
module load by iterating categories then items). -/
def allItems (db : Database) : List EmojiItem :=
  (db.map (·.items)).flatten

/-- The `emojiToNames` map: keyed by `normalizeEmoji(item.emoji)`, first
writer wins (`if (!emojiToNames.has(emojiKey))`). Lookup of an emoji `e`
normalizes `e` first, as every call site does. -/
def emojiToNames (db : Database) (e : String) : Option (List String) :=
  ((allItems db).find? (fun it => normalizeEmoji it.emoji = normalizeEmoji e)).map (·.names)

/-- The `(category, item)` pairs in database order, used for the
`emojiToCategory` map. -/
def catItemPairs (db : Database) : List (String × EmojiItem) :=
  (db.map (fun c => c.items.map (fun it => (c.category, it)))).flatten

/-- The `emojiToCategory` map: keyed by normalized emoji, first writer wins. -/
def emojiToCategory (db : Database) (e : String) : Option String :=
  ((catItemPairs db).find? (fun p => normalizeEmoji p.2.emoji = normalizeEmoji e)).map (·.1)

/-- The `categoryToItems` map: `categoryToItems.set(cat.category, cat.items)`
has no presence check, so the LAST category block with a given name wins.
`getEmojisByCategory` returns `[]` on a miss (`|| []`). -/
def categoryToItems (db : Database) (category : String) : List EmojiItem :=
  ((db.reverse.find? (fun c => c.category = category)).map (·.items)).getD []

/-- The `nameToEmoji` map: for each item (in `allItems` order) and each of its
names, key `normalizeName(name)` (empty keys skipped), value `item.emoji`,
first writer wins. Lookup takes an already-normalized word. -/
def nameToEmoji (db : Database) (w : String) : Option String :=
  if w = "" then none
  else ((allItems db).find? (fun it => it.names.any (fun n => normalizeName n = w))).map (·.emoji)

/-- The `keywordToEmoji` map: built after `nameToEmoji`, skipping any key
already present there; first writer wins among items by keyword. -/
def keywordToEmoji (db : Database) (w : String) : Option String :=
  if w = "" then none
  else if (nameToEmoji db w).isSome then none
  else ((allItems db).find? (fun it => it.keywords.any (fun n => normalizeName n = w))).map (·.emoji)

/-- `NAME_OVERRIDES = new Map([["puppy", "🐶"]])`. -/
def NAME_OVERRIDES : List (String × String) := [("puppy", "🐶")]

/-- `findEmojiByName` from `emoji-data.ts`: normalize the query, try the
override table (only honoured when the override emoji has a category),
then `nameToEmoji ?? keywordToEmoji`, then the category lookup. -/
def findEmojiByName (db : Database) (name : String) : Option (String × String) :=
  let normalized := normalizeName name
  let viaOverride : Option (String × String) :=
    match (NAME_OVERRIDES.find? (fun p => p.1 = normalized)).map (·.2) with
    | some overrideEmoji =>
      match emojiToCategory db overrideEmoji with
      | some overrideCategory => some (overrideEmoji, overrideCategory)
      | none => none
    | none => none
  match viaOverride with
  | some r => some r
  | none =>
    match nameToEmoji db normalized <|> keywordToEmoji db normalized with
    | none => none
    | some emoji =>
      match emojiToCategory db emoji with
      | none => none
      | some category => some (emoji, category)

/-- `getEmojisByCategory`. -/
def getEmojisByCategory (db : Database) (category : String) : List EmojiItem :=
  categoryToItems db category

/-- `getCategoryByEmoji` (`emojiToCategory.get(normalizeEmoji(emoji)) || null`). -/
def getCategoryByEmoji (db : Database) (e : String) : Option String :=
  emojiToCategory db e

/-- `areVisuallySimilar` from `emoji-data.ts`: look up both names lists
(by normalized key), return `false` if either is absent, else test whether
any name of the second occurs (case-insensitively) among names of the first. -/
def areVisuallySimilar (db : Database) (emoji1 emoji2 : String) : Bool :=
  match emojiToNames db emoji1, emojiToNames db emoji2 with
  | some names1, some names2 =>
    names2.any (fun n => names1.any (fun m => jsToLower m = jsToLower n))
  | _, _ => false

/-- `getDistractors`: same-category items, minus the target (by normalized
key) and anything visually similar to it, shuffled, first `count` taken.
`sh` stands for the uniform shuffle (a permutation of its input). -/
def getDistractors (sh : List EmojiItem → List EmojiItem) (db : Database)
    (targetEmoji category : String) (count : Nat := 2) : List String :=
  let categoryItems := getEmojisByCategory db category
  let targetKey := normalizeEmoji targetEmoji
  let validDistractors := categoryItems.filter (fun item =>
    normalizeEmoji item.emoji ≠ targetKey ∧ ¬ areVisuallySimilar db targetEmoji item.emoji)
  ((sh validDistractors).take count).map (·.emoji)

/-! ### Game content generation (`src/lib/audio.ts`, game-content module) -/

/-- The `type` field of `GameContent` (`z.enum(["color", "emoji"])`). -/
inductive GType where
  | color
  | emoji
deriving DecidableEq, Repr

/-- `GameContent` (`src/lib/schema.ts`): the schema forces `distractors` to a
2-element array; we carry a list, and 2-ness is proved where produced. -/
structure GameContent where
  type : GType
  targetValue : String
  distractors : List String
deriving DecidableEq, Repr

/-- `CSS_COLORS`: the word → canonical CSS color dictionary, in source
(insertion) order, including translated aliases. -/
def CSS_COLORS : List (String × String) := [
  ("red", "red"), ("blue", "blue"), ("green", "green"), ("yellow", "yellow"),
  ("orange", "orange"), ("purple", "purple"), ("pink", "pink"),
  ("brown", "brown"), ("black", "black"), ("white", "white"), ("gray", "gray"),
  ("grey", "gray"), ("cyan", "cyan"), ("magenta", "magenta"), ("lime", "lime"),
  ("navy", "navy"), ("teal", "teal"), ("maroon", "maroon"), ("olive", "olive"),
  ("aqua", "aqua"), ("gold", "gold"), ("silver", "silver"),
  ("rojo", "red"), ("azul", "blue"), ("verde", "green"),
  ("amarillo", "yellow"), ("naranja", "orange"), ("morado", "purple"),
  ("rosa", "pink"),
  ("rouge", "red"), ("bleu", "blue"), ("vert", "green"), ("jaune", "yellow"),
  ("rot", "red"), ("blau", "blue"), ("grün", "green"), ("gelb", "yellow")]

/-- Dictionary lookup `CSS_COLORS[normalizedWord]` (object keys are unique). -/
def cssColorOf (w : String) : Option String :=
  (CSS_COLORS.find? (fun p => p.1 = w)).map (·.2)

/-- `Object.values(CSS_COLORS)` in insertion order (with duplicates). -/
def cssColorValues : List String :=
  CSS_COLORS.map (·.2)

/-- `COLOR_GROUPS`: hand-authored color similarity groups, in source order. -/
def COLOR_GROUPS : List (List String) := [
  ["red", "orange", "pink", "maroon"],
  ["blue", "cyan", "navy", "teal"],
  ["green", "lime", "olive", "teal"],
  ["yellow", "gold", "orange", "lime"],
  ["purple", "magenta", "pink", "navy"],
  ["brown", "maroon", "orange", "olive"],
  ["black", "gray", "navy", "brown"],
  ["white", "silver", "gray", "cyan"]]

/-- `[...new Set(xs)]`: deduplicate keeping the FIRST occurrence of each
element, in order (JavaScript `Set` insertion-order semantics). -/
def jsDedup {α : Type} [DecidableEq α] (l : List α) : List α :=
  go [] l
where
  go (seen : List α) : List α → List α
    | [] => []
    | x :: xs => if x ∈ seen then go seen xs else x :: go (x :: seen) xs

/-- `getColorDistractors`: colors outside the target's (first matching)
similarity group and different from the target, deduplicated, shuffled,
first `count` taken. `sh` is the uniform shuffle on string lists. -/
def getColorDistractors (sh : List String → List String)
    (targetColor : String) (count : Nat := 2) : List String :=
  let group := COLOR_GROUPS.find? (fun g => g.contains targetColor)
  let otherColors := cssColorValues.filter (fun c =>
    c != targetColor && group.all (fun g => ! g.contains c))
  ((sh (jsDedup otherColors)).take count)

/-- `generateLocalContent`: normalize the word, try the color dictionary,
else the emoji name lookup with same-category distractors, requiring at
least 2 of them, else `null`. `shI`/`shC` stand for the one polymorphic
shuffle utility at its two element types. -/
def generateLocalContent (db : Database)
    (shI : List EmojiItem → List EmojiItem) (shC : List String → List String)
    (word : String) : Option GameContent :=
  let normalizedWord := jsTrim (jsToLower word)
  match cssColorOf normalizedWord with
  | some cssColor =>
    some ⟨GType.color, cssColor, getColorDistractors shC cssColor 2⟩
  | none =>
    match findEmojiByName db normalizedWord with
    | some (emoji, category) =>
      let distractors := getDistractors shI db emoji category 2
      if distractors.length < 2 then none
      else some ⟨GType.emoji, emoji, distractors⟩
    | none => none

/-- The `needsFix` test of `fixVisuallySimilarEmojis`: some distractor is
similar to the target, or (when there are at least two) the first two
distractors are similar to each other. -/
def needsFix (db : Database) (target : String) (distractors : List String) : Bool :=
  distractors.any (fun d => areVisuallySimilar db target d) ||
    (match distractors with
     | d0 :: d1 :: _ => areVisuallySimilar db d0 d1
     | _ => false)

/-- The category repair pool of `fixVisuallySimilarEmojis`: same-category
items that are not the target (RAW string comparison `item.emoji !==
target`, unlike `getDistractors`) and not visually similar to it. -/
def validCategoryDistractors (db : Database) (target category : String) :
    List EmojiItem :=
  (getEmojisByCategory db category).filter (fun item =>
    item.emoji ≠ target ∧ ¬ areVisuallySimilar db target item.emoji)

/-- The fallback filter of `fixVisuallySimilarEmojis`: original distractors
not similar to and different from the target. -/
def fallbackFiltered (db : Database) (content : GameContent) : List String :=
  content.distractors.filter (fun d =>
    ¬ areVisuallySimilar db content.targetValue d ∧ d ≠ content.targetValue)

/-- The final fallback of `fixVisuallySimilarEmojis`: keep original
distractors that are not similar to and not equal to the target, if at
least two remain; otherwise return the content unchanged. -/
def fixFallback (db : Database) (content : GameContent) : GameContent :=
  let filtered := fallbackFiltered db content
  if 2 ≤ filtered.length then
    { content with distractors := [filtered.getD 0 "", filtered.getD 1 ""] }
  else content

/-- `fixVisuallySimilarEmojis` (the Corrector): non-emoji content is
returned unchanged; emoji content failing the similarity checks is
repaired from the target's category when possible (note the category
filter compares raw `item.emoji !== target`, unlike `getDistractors`),
else via `fixFallback`. -/
def fixVisuallySimilarEmojis (db : Database)
    (shI : List EmojiItem → List EmojiItem) (content : GameContent) : GameContent :=
  if content.type ≠ GType.emoji then content
  else
    let target := content.targetValue
    if ¬ needsFix db target content.distractors then content
    else
      match getCategoryByEmoji db target with
      | some category =>
        let validDistractors := validCategoryDistractors db target category
        if 2 ≤ validDistractors.length then
          let shuffled := shI validDistractors
          { content with distractors :=
              [(shuffled.getD 0 ⟨[], [], ""⟩).emoji, (shuffled.getD 1 ⟨[], [], ""⟩).emoji] }
        else fixFallback db content
      | none => fixFallback db content

/-- `generateGameContent`: local generation first; on a local miss the
external generative call is consulted. `llm` abstracts `generateText`
constrained by `GameContentSchema`: it either throws (`Except.error`),
yields no schema-conforming output (`Except.ok none`), or yields a
validated `GameContent`, which is passed through the Corrector. The
`catch` block maps any thrown error to `none`, so the Lean result type
`Option GameContent` carries no error case at all. -/
def generateGameContent (db : Database)
    (shI : List EmojiItem → List EmojiItem) (shC : List String → List String)
    (llm : Except String (Option GameContent)) (word : String) :
    Option GameContent :=
  match generateLocalContent db shI shC word with
  | some localContent => some localContent
  | none =>
    match llm with
    | Except.error _ => none
    | Except.ok none => none
    | Except.ok (some output) => some (fixVisuallySimilarEmojis db shI output)

/-! ### Offline build pipeline (`src/scripts/generate-emoji-data.ts`)

The pipeline is embedded with two oracles as parameters: `semSim` for the
word-embedding cosine similarity (`semanticSimilarity`, scores modelled as
rationals) and `moby` for the synonym thesaurus (`moby.search`). -/

namespace Gen

/-- One parsed line of `emoji-test.txt` (`EmojiTestEntry`). -/
structure EmojiTestEntry where
  emoji : String
  version : String
  name : String
  group : String
  subgroup : String
  status : String
deriving DecidableEq, Repr

/-- One CLDR record: the `tts` label and the `default` keyword list
(`AnnotationData` in the script). -/
structure CldrEntry where
  tts : Option String
  keywords : List String
deriving DecidableEq, Repr

/-- Per-locale CLDR maps (`LocaleData`), as association lists with unique
keys (they come from JSON objects). -/
structure LocaleData where
  annotations : List (String × CldrEntry)
  derived : List (String × CldrEntry)
deriving DecidableEq, Repr

/-- `LOCALES = ["en", "vi"]`. -/
def LOCALES : List String := ["en", "vi"]

/-- `normalizeEmojiKey`: identical to the runtime `normalizeEmoji`. -/
def normalizeEmojiKey (emoji : String) : String :=
  FindIt.normalizeEmoji emoji

/-- `stripSkinTone`: remove the skin tone modifiers U+1F3FB–U+1F3FF. -/
def stripSkinTone (emoji : String) : String :=
  ⟨emoji.data.filter (fun c => ¬ (0x1F3FB ≤ c.toNat ∧ c.toNat ≤ 0x1F3FF))⟩

/-- `getLocaleEntry`: exact key first, then (when different) the
variation-selector-normalized key. -/
def getLocaleEntry (m : List (String × CldrEntry)) (emoji : String) : Option CldrEntry :=
  match (m.find? (fun p => p.1 = emoji)).map (·.2) with
  | some d => some d
  | none =>
    let normalized := normalizeEmojiKey emoji
    if normalized ≠ emoji then (m.find? (fun p => p.1 = normalized)).map (·.2)
    else none

/-- `getEnglishName`: `tts` of the main record, else of the derived one. -/
def getEnglishName (ld : LocaleData) (emoji : String) : Option String :=
  match (getLocaleEntry ld.annotations emoji).bind (·.tts) with
  | some t => some t
  | none => (getLocaleEntry ld.derived emoji).bind (·.tts)

/-- `collectLocaleNames`: the `tts` labels present in the main and derived
records, in that order. -/
def collectLocaleNames (ld : LocaleData) (emoji : String) : List String :=
  ((getLocaleEntry ld.annotations emoji).bind (·.tts)).toList ++
    ((getLocaleEntry ld.derived emoji).bind (·.tts)).toList

/-- `collectLocaleKeywords`: keywords of the main then the derived record. -/
def collectLocaleKeywords (ld : LocaleData) (emoji : String) : List String :=
  ((getLocaleEntry ld.annotations emoji).map (·.keywords)).getD [] ++
    ((getLocaleEntry ld.derived emoji).map (·.keywords)).getD []

/-- `CATEGORY_BY_GROUP`: the fixed group/subgroup → category table. -/
def CATEGORY_BY_GROUP : List (String × List (String × String)) := [
  ("Smileys & Emotion", [
    ("cat-face", "internal:cat-face"),
    ("emotion", "faces"),
    ("face-affection", "faces"),
    ("face-concerned", "faces"),
    ("face-costume", "faces"),
    ("face-glasses", "faces"),
    ("face-hand", "faces"),
    ("face-hat", "faces"),
    ("face-negative", "faces"),
    ("face-neutral-skeptical", "faces"),
    ("face-sleepy", "faces"),
    ("face-smiling", "faces"),
    ("face-tongue", "faces"),
    ("face-unwell", "faces"),
    ("heart", "faces"),
    ("monkey-face", "internal:monkey-face")]),
  ("People & Body", [
    ("body-parts", "people"),
    ("family", "internal:family"),
    ("hand-fingers-closed", "internal:hands"),
    ("hand-fingers-open", "internal:hands"),
    ("hand-fingers-partial", "internal:hands"),
    ("hand-prop", "people"),
    ("hand-single-finger", "internal:hands"),
    ("hands", "internal:hands"),
    ("person", "people"),
    ("person-activity", "internal:person-activity"),
    ("person-fantasy", "fantasy"),
    ("person-gesture", "people"),
    ("person-resting", "people"),
    ("person-role", "people"),
    ("person-sport", "sports"),
    ("person-symbol", "internal:person-symbol")]),
  ("Animals & Nature", [
    ("animal-amphibian", "animals"),
    ("animal-bird", "animals"),
    ("animal-bug", "animals"),
    ("animal-mammal", "animals"),
    ("animal-marine", "animals"),
    ("animal-reptile", "animals"),
    ("plant-flower", "nature"),
    ("plant-other", "nature"),
    ("sky & weather", "weather")]),
  ("Food & Drink", [
    ("dishware", "objects"),
    ("drink", "drinks"),
    ("food-asian", "food"),
    ("food-fruit", "fruits"),
    ("food-prepared", "food"),
    ("food-sweet", "food"),
    ("food-vegetable", "vegetables")]),
  ("Travel & Places", [
    ("hotel", "places"),
    ("place-building", "places"),
    ("place-geographic", "places"),
    ("place-map", "internal:place-map"),
    ("place-other", "places"),
    ("place-religious", "places"),
    ("sky & weather", "weather"),
    ("time", "time"),
    ("transport-air", "vehicles"),
    ("transport-ground", "vehicles"),
    ("transport-water", "vehicles")]),
  ("Activities", [
    ("arts & crafts", "arts"),
    ("award-medal", "objects"),
    ("event", "celebration"),
    ("game", "games"),
    ("sport", "sports")]),
  ("Objects", [
    ("book-paper", "school"),
    ("clothing", "clothing"),
    ("computer", "objects"),
    ("household", "objects"),
    ("light & video", "objects"),
    ("lock", "objects"),
    ("mail", "objects"),
    ("medical", "medical"),
    ("money", "objects"),
    ("music", "music"),
    ("musical-instrument", "music"),
    ("office", "school"),
    ("other-object", "objects"),
    ("phone", "objects"),
    ("science", "medical"),
    ("sound", "music"),
    ("tool", "tools"),
    ("writing", "school")]),
  ("Symbols", [
    ("alphanum", "symbols"),
    ("arrow", "symbols"),
    ("av-symbol", "symbols"),
    ("currency", "symbols"),
    ("gender", "symbols"),
    ("geometric", "shapes"),
    ("keycap", "symbols"),
    ("math", "symbols"),
    ("other-symbol", "symbols"),
    ("punctuation", "symbols"),
    ("religion", "symbols"),
    ("time", "time"),
    ("transport-sign", "symbols"),
    ("warning", "symbols"),
    ("zodiac", "symbols")]),
  ("Flags", [
    ("country-flag", "country"),
    ("flag", "flags"),
    ("subdivision-flag", "flags")]),
  ("Component", [
    ("hair-style", "internal:component"),
    ("skin-tone", "internal:component")])]

/-- `mapCategory`: unmapped group or subgroup is a build error (throw). -/
def mapCategory (group subgroup : String) : Except String String :=
  match (CATEGORY_BY_GROUP.find? (fun p => p.1 = group)).map (·.2) with
  | none => Except.error ("Unexpected group " ++ group)
  | some groupMap =>
    match (groupMap.find? (fun p => p.1 = subgroup)).map (·.2) with
    | none => Except.error ("Unexpected subgroup " ++ subgroup ++ " for group " ++ group)
    | some category => Except.ok category

/-- `isInternalCategory`. -/
def isInternalCategory (category : String) : Bool :=
  jsStartsWith category "internal:"

/-- The `emojiByKey` map: normalized key → first entry's raw emoji. -/
def emojiByKey (entries : List EmojiTestEntry) (key : String) : Option String :=
  ((entries.find? (fun e => normalizeEmojiKey e.emoji = key)).map (·.emoji))

/-- The recurring skin-tone-variant test
(`baseEmoji && baseKey && baseKey !== entryKey`); note the JavaScript
truthiness tests on the two strings. -/
def isVariant (entries : List EmojiTestEntry) (e : EmojiTestEntry) : Bool :=
  match emojiByKey entries (normalizeEmojiKey (stripSkinTone e.emoji)) with
  | some baseEmoji =>
    baseEmoji ≠ "" ∧ normalizeEmojiKey baseEmoji ≠ "" ∧
      normalizeEmojiKey baseEmoji ≠ normalizeEmojiKey e.emoji
  | none => false

/-- The `aliasMap` of a base emoji: its skin-tone variants in entry order. -/
def aliasesOf (entries : List EmojiTestEntry) (base : String) : List String :=
  (entries.filter (fun e =>
    isVariant entries e ∧
      emojiByKey entries (normalizeEmojiKey (stripSkinTone e.emoji)) = some base)).map (·.emoji)

/-- Maximal runs of characters satisfying `p` (helper for the two
JavaScript `split` calls). -/
def runsOf (p : Char → Bool) (cs : List Char) : List String :=
  go [] cs
where
  go (cur : List Char) : List Char → List String
    | [] => if cur = [] then [] else [⟨cur.reverse⟩]
    | c :: rest =>
      if p c then go (c :: cur) rest
      else if cur = [] then go [] rest
      else (⟨cur.reverse⟩ : String) :: go [] rest

/-- `name.split(/[^a-zA-Z0-9]+/).filter(Boolean)`: the maximal
ASCII-alphanumeric runs. -/
def tokenizeAlnum (s : String) : List String :=
  runsOf (fun c =>
    ('a' ≤ c ∧ c ≤ 'z') ∨ ('A' ≤ c ∧ c ≤ 'Z') ∨ ('0' ≤ c ∧ c ≤ '9')) s.data

/-- `s.split(/\s+/)` as JavaScript computes it: non-whitespace runs, plus an
empty token at an end that starts/finishes with whitespace, and `[""]` for
the empty string. -/
def jsSplitWs (s : String) : List String :=
  if s.data = [] then [""]
  else
    let tokens := runsOf (fun c => ¬ c.isWhitespace) s.data
    let pre := if s.data.head?.any (·.isWhitespace) then [""] else []
    let post := if s.data.getLast?.any (·.isWhitespace) then [""] else []
    pre ++ tokens ++ post

/-- The lowercased words counted for an entry in Phase 1a (`countWord`):
tokens of every locale name plus every locale keyword. -/
def usedWordsLower (ld : String → LocaleData) (emoji : String) : List String :=
  ((LOCALES.map (fun loc =>
    ((collectLocaleNames (ld loc) emoji).map tokenizeAlnum).flatten ++
      collectLocaleKeywords (ld loc) emoji)).flatten).map FindIt.jsToLower

/-- The lowercased CLDR-keyword-only words of an entry (`countKeywordOnly`). -/
def keywordOnlyLower (ld : String → LocaleData) (emoji : String) : List String :=
  ((LOCALES.map (fun loc => collectLocaleKeywords (ld loc) emoji)).flatten).map FindIt.jsToLower

/-- `keywordCounts.get(w)`: the distinct emojis of non-variant entries that
use the lowercased word `w` in their names or keywords. -/
def keywordCountEmojis (entries : List EmojiTestEntry) (ld : String → LocaleData)
    (w : String) : List String :=
  FindIt.jsDedup ((entries.filter (fun e =>
    ¬ isVariant entries e ∧ w ∈ usedWordsLower ld e.emoji)).map (·.emoji))

/-- `keywordCounts.get(w)?.size`, with `none` for an absent word. -/
def keywordCountOpt (entries : List EmojiTestEntry) (ld : String → LocaleData)
    (w : String) : Option Nat :=
  match keywordCountEmojis entries ld w with
  | [] => none
  | l => some l.length

/-- `keywordCounts.get(w)?.size || 0` style total count. -/
def keywordCount (entries : List EmojiTestEntry) (ld : String → LocaleData)
    (w : String) : Nat :=
  (keywordCountEmojis entries ld w).length

/-- `keywordOnlyCounts.get(w)?.size || 0`. -/
def keywordOnlyCount (entries : List EmojiTestEntry) (ld : String → LocaleData)
    (w : String) : Nat :=
  (FindIt.jsDedup ((entries.filter (fun e =>
    ¬ isVariant entries e ∧ w ∈ keywordOnlyLower ld e.emoji)).map (·.emoji))).length

/-- `PromotionCandidate`; the embedding score is a rational. -/
structure PromotionCandidate where
  emoji : String
  tts : String
  isNameMatch : Bool
  synonymScore : ℚ
deriving DecidableEq, Repr

/-- `MAX_KEYWORD_FREQUENCY = 75`. -/
def MAX_KEYWORD_FREQUENCY : Nat := 75

/-- `SYNONYM_THRESHOLD = 0.45` (as the kernel-computable rational 45/100). -/
def SYNONYM_THRESHOLD : ℚ := mkRat 45 100

/-- The lowercased locale names of an entry (the `existingNames` set of
Phase 1b, used only for membership). -/
def existingNamesLower (ld : String → LocaleData) (emoji : String) : List String :=
  ((LOCALES.map (fun loc => (collectLocaleNames (ld loc) emoji).map FindIt.jsToLower)).flatten)

/-- Phase 1b, per entry: the `(lowerKeyword, candidate)` pushes of a
non-variant, non-internal entry, in keyword order. -/
def candidatesOfEntry (semSim : String → String → ℚ) (entries : List EmojiTestEntry)
    (ld : String → LocaleData) (e : EmojiTestEntry) :
    List (String × PromotionCandidate) :=
  let englishTts := (getEnglishName (ld "en") e.emoji).getD ""
  let allKeywords := collectLocaleKeywords (ld "en") e.emoji
  let existing := existingNamesLower ld e.emoji
  allKeywords.filterMap (fun keyword =>
    let lowerKeyword := FindIt.jsToLower keyword
    if MAX_KEYWORD_FREQUENCY < keywordOnlyCount entries ld lowerKeyword then none
    else
      let isNameMatch := existing.contains lowerKeyword
      let synonymScore := semSim lowerKeyword (FindIt.jsToLower englishTts)
      if SYNONYM_THRESHOLD ≤ synonymScore then
        some (lowerKeyword, ⟨e.emoji, englishTts, isNameMatch, synonymScore⟩)
      else none)

/-- Phase 1b over all entries: skin-tone variants skipped, `mapCategory`
consulted for every remaining entry (its failure fails the build), internal
categories contributing no candidates. -/
def phase1b (semSim : String → String → ℚ) (entries : List EmojiTestEntry)
    (ld : String → LocaleData) : Except String (List (String × PromotionCandidate)) :=
  go entries
where
  go : List EmojiTestEntry → Except String (List (String × PromotionCandidate))
    | [] => Except.ok []
    | e :: rest =>
      if isVariant entries e then go rest
      else
        match mapCategory e.group e.subgroup with
        | Except.error err => Except.error err
        | Except.ok category =>
          match go rest with
          | Except.error err => Except.error err
          | Except.ok rest' =>
            Except.ok ((if isInternalCategory category then []
                        else candidatesOfEntry semSim entries ld e) ++ rest')

/-- Insertion-ordered grouping of a keyed push list (the JavaScript
`Map<string, T[]>` with push). -/
def groupByKey {β : Type} (l : List (String × β)) : List (String × List β) :=
  (FindIt.jsDedup (l.map (·.1))).map (fun k =>
    (k, (l.filter (fun p => p.1 = k)).map (·.2)))

/-- Rank 0 for a name-match candidate, 1 otherwise — the first component of
the Phase 2 comparator. -/
def nmRank (c : PromotionCandidate) : Nat :=
  if c.isNameMatch then 0 else 1

/-- The Phase 2 comparator as a total preorder: `candLE a b` holds when the
sort comparator returns a non-positive value on `(a, b)`: name-match first,
then higher synonym score, then shorter canonical (TTS) label. -/
@[reducible] def candLE (a b : PromotionCandidate) : Prop :=
  nmRank a < nmRank b ∨
    (nmRank a = nmRank b ∧
      (b.synonymScore < a.synonymScore ∨
        (a.synonymScore = b.synonymScore ∧ a.tts.length ≤ b.tts.length)))

instance : DecidableRel candLE := fun a b =>
  inferInstanceAs (Decidable (candLE a b))

/-- Phase 2 sort: JavaScript `Array.prototype.sort` is stable, so it is
modelled by a stable insertion sort on the comparator's preorder. -/
def sortCandidates (candidates : List PromotionCandidate) : List PromotionCandidate :=
  candidates.insertionSort candLE

/-- `candidates[0]` after the Phase 2 sort. -/
def pickWinner (candidates : List PromotionCandidate) : Option PromotionCandidate :=
  (sortCandidates candidates).head?

/-- `keywordWinners.get(kw)`: the emoji of the first sorted candidate. -/
def keywordWinnerEmoji (promo : List (String × List PromotionCandidate))
    (kw : String) : Option String :=
  (((promo.find? (fun p => p.1 = kw)).map (·.2)).bind pickWinner).map (·.emoji)

/-- JavaScript `Set.add`: append when absent. -/
def addIfAbsent (l : List String) (x : String) : List String :=
  if x ∈ l then l else l ++ [x]

/-- The `/^[^:]+:\s+/` strip applied to country-flag labels. -/
def dropFlagTag (name : String) : String :=
  let pre := name.data.takeWhile (· ≠ ':')
  let rest := name.data.dropWhile (· ≠ ':')
  match rest with
  | [] => name
  | _ :: tail =>
    if pre ≠ [] ∧ tail.head?.any (·.isWhitespace) then
      ⟨tail.dropWhile (·.isWhitespace)⟩
    else name

/-- Phase 3 name set of an entry before keyword promotion: locale names
with the faces `" face"` suffix and country `"flag: "` tag handling. -/
def entryNames (ld : String → LocaleData) (category : String) (emoji : String) :
    List String :=
  (((LOCALES.map (fun loc => collectLocaleNames (ld loc) emoji)).flatten).foldl
    (fun acc name =>
      if category = "faces" ∧ FindIt.jsEndsWith name " face" then
        addIfAbsent acc (FindIt.jsDropRight name 5)
      else if category = "country" then
        let withoutTag := dropFlagTag name
        if FindIt.jsTrim withoutTag ≠ "" then addIfAbsent acc withoutTag
        else addIfAbsent acc name
      else addIfAbsent acc name) [])

/-- Phase 3 keyword promotion: the Phase 2 winner's keywords, plus unique
keywords, appended to the name set (tracking lowercased names as the code
does). -/
def promoteKeywords (entries : List EmojiTestEntry) (ld : String → LocaleData)
    (promo : List (String × List PromotionCandidate)) (e : EmojiTestEntry)
    (names0 : List String) : List String :=
  let allKeywords := collectLocaleKeywords (ld "en") e.emoji
  (allKeywords.foldl (fun (acc : List String × List String) keyword =>
    let lowerKeyword := FindIt.jsToLower keyword
    if lowerKeyword ∈ acc.2 then acc
    else if keywordWinnerEmoji promo lowerKeyword = some e.emoji then
      (acc.1 ++ [keyword], acc.2 ++ [lowerKeyword])
    else if keywordCount entries ld lowerKeyword = 1 then
      (acc.1 ++ [keyword], acc.2 ++ [lowerKeyword])
    else acc) (names0, names0.map FindIt.jsToLower)).1

/-- Phase 3 similarity keywords: CLDR keywords whose corpus-wide count is
defined and in `(1, 10]`. -/
def itemKeywords (entries : List EmojiTestEntry) (ld : String → LocaleData)
    (emoji : String) : List String :=
  (collectLocaleKeywords (ld "en") emoji).filter (fun k =>
    match keywordCountOpt entries ld (FindIt.jsToLower k) with
    | some count => decide (1 < count) && decide (count ≤ 10)
    | none => false)

/-- The build-side emoji item (`EmojiItem` of the script, with the optional
`emoji_alias` as a possibly empty list). -/
structure EmojiItem where
  emoji : String
  names : List String
  keywords : List String
  emoji_alias : List String
deriving DecidableEq, Repr

/-- A build-side category block. -/
structure EmojiCategory where
  category : String
  items : List EmojiItem
deriving DecidableEq, Repr

/-- The Phase 3 item of one processed entry. -/
def buildItem (entries : List EmojiTestEntry) (ld : String → LocaleData)
    (promo : List (String × List PromotionCandidate)) (category : String)
    (e : EmojiTestEntry) : EmojiItem :=
  ⟨e.emoji,
   promoteKeywords entries ld promo e (entryNames ld category e.emoji),
   itemKeywords entries ld e.emoji,
   aliasesOf entries e.emoji⟩

/-- Phase 3 traversal: skip variants, skip raw-emoji duplicates (`seen`),
map the category (failure fails the build), build the item. Returns the
`(category, item)` pairs in processing order. -/
def phase3 (entries : List EmojiTestEntry) (ld : String → LocaleData)
    (promo : List (String × List PromotionCandidate)) :
    Except String (List (String × EmojiItem)) :=
  go entries []
where
  go : List EmojiTestEntry → List String → Except String (List (String × EmojiItem))
    | [], _ => Except.ok []
    | e :: rest, seen =>
      if isVariant entries e then go rest seen
      else if e.emoji ∈ seen then go rest seen
      else
        match mapCategory e.group e.subgroup with
        | Except.error err => Except.error err
        | Except.ok category =>
          match go rest (e.emoji :: seen) with
          | Except.error err => Except.error err
          | Except.ok rest' =>
            Except.ok ((category, buildItem entries ld promo category e) :: rest')

/-- Last-writer lookup in an association list (JavaScript `Map.set`
overwrite / `Object.fromEntries` semantics). -/
def lookupLast {β : Type} (l : List (String × β)) (k : String) : Option β :=
  (l.reverse.find? (fun p => p.1 = k)).map (·.2)

/-- Phase 4: the initial `nameToEmoji` record — internal categories
skipped, lowercased trimmed names, empty keys skipped, first writer wins. -/
def initialNameToEmoji (database : List EmojiCategory) : List (String × String) :=
  database.foldl (fun acc cat =>
    if isInternalCategory cat.category then acc
    else cat.items.foldl (fun acc2 item =>
      item.names.foldl (fun acc3 name =>
        let lowerName := FindIt.jsTrim (FindIt.jsToLower name)
        if lowerName = "" then acc3
        else if (acc3.find? (fun p => p.1 = lowerName)).isSome then acc3
        else acc3 ++ [(lowerName, item.emoji)]) acc2) acc) []

/-- The word set from an item's multi-word names used by the moby pass:
words of length ≥ 3 from lowercased names that split into ≥ 2 tokens. -/
def compoundNameWords (names : List String) : List String :=
  (names.map (fun name =>
    let words := jsSplitWs (FindIt.jsToLower name)
    if 2 ≤ words.length then words.filter (fun w => 3 ≤ w.length) else [])).flatten

/-- Phase 5: the moby-based promotion pass, threading the mutable
`nameToEmoji` record through every non-internal item and keyword. -/
def mobyPass (moby : String → Option (List String))
    (eKList : List (String × List String)) (database : List EmojiCategory)
    (n2e0 : List (String × String)) : List (String × String) :=
  database.foldl (fun accCat cat =>
    if isInternalCategory cat.category then accCat
    else cat.items.foldl (fun accItem item =>
      let existingNames := item.names.map FindIt.jsToLower
      let allKeywords := (lookupLast eKList (normalizeEmojiKey item.emoji)).getD []
      let compound := compoundNameWords item.names
      allKeywords.foldl (fun n2e keyword =>
        let lowerKeyword := FindIt.jsToLower keyword
        if existingNames.contains lowerKeyword then n2e
        else if (n2e.find? (fun p => p.1 = lowerKeyword)).isSome then n2e
        else
          match moby keyword with
          | none => n2e
          | some synonyms =>
            let synonymSet := synonyms.map (fun s => FindIt.jsTrim (FindIt.jsToLower s))
            if existingNames.any (fun name => synonymSet.contains name) then
              n2e ++ [(lowerKeyword, item.emoji)]
            else if synonyms.any (fun syn => compound.contains (FindIt.jsTrim (FindIt.jsToLower syn))) then
              n2e ++ [(lowerKeyword, item.emoji)]
            else n2e) accItem) accCat) n2e0

/-- `names.reduce((a, b) => a.length <= b.length ? a : b)`: JavaScript
`reduce` with no initial value THROWS on an empty array, failing the
build. -/
def shortestOf (names : List String) : Except String String :=
  match names with
  | [] => Except.error "Reduce of empty array with no initial value"
  | n :: rest => Except.ok (rest.foldl (fun a b => if a.length ≤ b.length then a else b) n)

/-- The shortest names of an item list in order; the first `reduce` throw
wins (as in the script's loop). -/
def collectShortest : List EmojiItem → Except String (List String)
  | [] => Except.ok []
  | item :: rest =>
    match shortestOf item.names with
    | Except.error err => Except.error err
    | Except.ok s =>
      match collectShortest rest with
      | Except.error err => Except.error err
      | Except.ok ss => Except.ok (s :: ss)

/-- The shortest-name collection over non-internal categories, in order. -/
def shortestNamesOf (database : List EmojiCategory) : Except String (List String) :=
  collectShortest (((database.filter (fun c => ¬ isInternalCategory c.category)).map
    (·.items)).flatten)

/-- `BuildResult`: the compiled database and its four lookup tables. -/
structure BuildResult where
  database : List EmojiCategory
  nameToEmoji : List (String × String)
  emojiToKeywords : List (String × List String)
  emojiToCategory : List (String × String)
  shortestEmojiNames : List String
deriving DecidableEq, Repr

/-- `buildEmojiDatabase`: the whole pipeline. An `Except.error` models the
script throwing (nothing published). -/
def buildEmojiDatabase (semSim : String → String → ℚ)
    (moby : String → Option (List String)) (entries : List EmojiTestEntry)
    (ld : String → LocaleData) : Except String BuildResult :=
  match phase1b semSim entries ld with
  | Except.error err => Except.error err
  | Except.ok candidatePairs =>
    let promo := groupByKey candidatePairs
    match phase3 entries ld promo with
    | Except.error err => Except.error err
    | Except.ok pairs =>
      let database := (groupByKey pairs).map (fun p => EmojiCategory.mk p.1 p.2)
      let eKList := pairs.map (fun p => (normalizeEmojiKey p.2.emoji, p.2.keywords))
      let eCList := pairs.map (fun p => (normalizeEmojiKey p.2.emoji, p.1))
      let n2e := mobyPass moby eKList database (initialNameToEmoji database)
      match shortestNamesOf database with
      | Except.error err => Except.error err
      | Except.ok shortestNames =>
        Except.ok ⟨database, n2e, eKList, eCList, FindIt.jsDedup shortestNames⟩

end Gen

/-! ### Concrete instances used by witnesses and counterexamples

The compiled database itself is generated build output and is not among
the checked sources, so concrete databases below are modelled from the
spec and the repository's test fixtures (`Modelled from the spec`, §3/§8:
a `nature` category whose flower symbols share the name "flower", the
name `tree` resolving to a tree symbol, keyword-promoted names such as
"orange" on the tangerine symbol). -/

/-- Modelled from the spec: a small database instance for the missing
generated database, consistent with the repository's test fixtures
(`emoji-data.test.ts`: 🌸/🌹/🌷 are in `nature` and pairwise share the
name "flower"). -/
def dbFlower : Database :=
  [⟨"nature", [⟨["tree"], [], "🌳"⟩, ⟨["rose", "flower"], [], "🌹"⟩,
               ⟨["tulip", "flower"], [], "🌷"⟩]⟩]

/-- Modelled from the spec: a database instance in which the color word
"orange" was keyword-promoted to a name of the tangerine symbol (§4.2
promotes CLDR keywords like "orange" to first-class names). -/
def dbOrange : Database :=
  [⟨"fruits", [⟨["tangerine", "orange"], [], "🍊"⟩]⟩]

/-- A concrete shuffle outcome: the permutation moving "blue" and "cyan"
to the front (used to exhibit one reachable draw of the uniform shuffle). -/
def cexShuffleC3 : List String → List String := fun l =>
  l.filter (fun c => c == "blue" || c == "cyan") ++
    l.filter (fun c => ¬ (c == "blue" || c == "cyan"))

/-- The deduplicated non-red, non-red-group color pool that
`getColorDistractors` hands to the shuffle for target "red". -/
def LRed : List String :=
  ["blue", "green", "yellow", "purple", "brown", "black", "white", "gray",
   "cyan", "magenta", "lime", "navy", "teal", "olive", "aqua", "gold", "silver"]

/-- A trivial semantic-similarity oracle (score 0 everywhere). -/
def semZero : String → String → ℚ := fun _ _ => 0

/-- A trivial synonym oracle (no thesaurus hits). -/
def mobyNone : String → Option (List String) := fun _ => none

/-- Two `emoji-test` entries: a wave and its light-skin-tone variant whose
group/subgroup is NOT in the category table. -/
def entriesA : List Gen.EmojiTestEntry :=
  [⟨"👋", "1.0", "waving hand", "People & Body", "person-gesture", "fully-qualified"⟩,
   ⟨"👋🏻", "1.0", "waving hand: light skin tone", "BadGroup", "bad-sub", "fully-qualified"⟩]

/-- Locale data for `entriesA`: an English label for the wave only. -/
def ldA : String → Gen.LocaleData := fun loc =>
  if loc = "en" then ⟨[("👋", ⟨some "waving hand", []⟩)], []⟩ else ⟨[], []⟩

/-- One entry routed to an internal-only category, with no locale data at
all (hence no names). -/
def entriesB : List Gen.EmojiTestEntry :=
  [⟨"🦄", "1.0", "mystery", "Component", "skin-tone", "component"⟩]

/-- Empty locale data for `entriesB`. -/
def ldB : String → Gen.LocaleData := fun _ => ⟨[], []⟩

/-- Two mammal entries whose shared CLDR keyword "pet" occurs on exactly 2
symbols (inside the similarity range (1, 10]). -/
def entriesC8 : List Gen.EmojiTestEntry :=
  [⟨"🐶", "1.0", "dog face", "Animals & Nature", "animal-mammal", "fully-qualified"⟩,
   ⟨"🐱", "1.0", "cat face", "Animals & Nature", "animal-mammal", "fully-qualified"⟩]

/-- Locale data for `entriesC8`: English labels and the shared keyword. -/
def ldC8 : String → Gen.LocaleData := fun loc =>
  if loc = "en" then
    ⟨[("🐶", ⟨some "dog", ["pet"]⟩), ("🐱", ⟨some "cat", ["pet"]⟩)], []⟩
  else ⟨[], []⟩

/-- The dog item the build produces from `entriesC8`. -/
def itemC8 : Gen.EmojiItem := ⟨"🐶", ["dog"], ["pet"], []⟩

/-- The category block the build produces from `entriesC8`. -/
def catC8 : Gen.EmojiCategory := ⟨"animals", [itemC8, ⟨"🐱", ["cat"], ["pet"], []⟩]⟩

/-- The full build result for `entriesC8`/`ldC8`. -/
def rC8 : Gen.BuildResult :=
  ⟨[catC8], [("dog", "🐶"), ("cat", "🐱")],
   [("🐶", ["pet"]), ("🐱", ["pet"])],
   [("🐶", "animals"), ("🐱", "animals")], ["dog", "cat"]⟩

/-- One non-variant entry with an unmapped group (the build must reject it). -/
def entriesW9 : List Gen.EmojiTestEntry :=
  [⟨"🦓", "1.0", "zebra", "Nope", "nope", "fully-qualified"⟩]

/-- The item the build produces from `entriesA` (the variant recorded as an
alias of the base wave). -/
def itemA : Gen.EmojiItem := ⟨"👋", ["waving hand"], [], ["👋🏻"]⟩

/-- The full build result for `entriesA`/`ldA`. -/
def rA : Gen.BuildResult :=
  ⟨[⟨"people", [itemA]⟩], [("waving hand", "👋")], [("👋", [])],
   [("👋", "people")], ["waving hand"]⟩

/-- Two candidates competing for the keyword "cake": the birthday cake is
listed second but its keyword is literally one of its names. -/
def candsC7 : List Gen.PromotionCandidate :=
  [⟨"🥮", "moon cake", false, 1⟩, ⟨"🎂", "birthday cake", true, 1⟩]

/-- A promotion-candidate table with the single contested keyword "cake". -/
def promoC7 : List (String × List Gen.PromotionCandidate) := [("cake", candsC7)]

/-! ## Helper lemmas -/

theorem jsDedup_go_subset {α : Type} [DecidableEq α] (seen l : List α) {x : α}
    (h : x ∈ jsDedup.go seen l) : x ∈ l := by
  induction l generalizing seen with
  | nil =>
    simp only [jsDedup.go] at h
    exact h
  | cons y ys ih =>
    rw [jsDedup.go] at h
    split at h
    · exact List.mem_cons_of_mem _ (ih _ h)
    · rcases List.mem_cons.mp h with h | h
      · exact h ▸ List.mem_cons_self _ _
      · exact List.mem_cons_of_mem _ (ih _ h)

theorem jsDedup_subset {α : Type} [DecidableEq α] (l : List α) {x : α}
    (h : x ∈ jsDedup l) : x ∈ l :=
  jsDedup_go_subset [] l h

theorem emojiToNames_congr (db : Database) {a b : String}
    (h : normalizeEmoji a = normalizeEmoji b) :
    emojiToNames db a = emojiToNames db b := by
  unfold emojiToNames
  rw [h]

theorem areVisuallySimilar_comm (db : Database) (a b : String) :
    areVisuallySimilar db a b = areVisuallySimilar db b a := by
  unfold areVisuallySimilar
  cases h1 : emojiToNames db a with
  | none => cases h2 : emojiToNames db b <;> rfl
  | some ns1 =>
    cases h2 : emojiToNames db b with
    | none => rfl
    | some ns2 =>
      rw [Bool.eq_iff_iff]
      simp only [List.any_eq_true, decide_eq_true_eq]
      constructor
      · rintro ⟨n, hn, m, hm, he⟩
        exact ⟨m, hm, n, hn, he.symm⟩
      · rintro ⟨n, hn, m, hm, he⟩
        exact ⟨m, hm, n, hn, he.symm⟩

theorem mem_getDistractors {sh : List EmojiItem → List EmojiItem} {db : Database}
    {target category : String} {count : Nat}
    (hsh : ∀ l : List EmojiItem, (sh l).Perm l) {d : String}
    (hd : d ∈ getDistractors sh db target category count) :
    ∃ it ∈ getEmojisByCategory db category, d = it.emoji ∧
      normalizeEmoji it.emoji ≠ normalizeEmoji target ∧
      areVisuallySimilar db target it.emoji = false := by
  unfold getDistractors at hd
  simp only [List.mem_map] at hd
  obtain ⟨it, hit, rfl⟩ := hd
  have h1 : it ∈ sh (List.filter (fun item =>
      decide (normalizeEmoji item.emoji ≠ normalizeEmoji target ∧
        ¬ areVisuallySimilar db target item.emoji = true))
      (getEmojisByCategory db category)) := List.mem_of_mem_take hit
  have h2 := (hsh _).mem_iff.mp h1
  rw [List.mem_filter] at h2
  obtain ⟨hmem, hp⟩ := h2
  simp only [decide_eq_true_eq] at hp
  exact ⟨it, hmem, rfl, hp.1, by
    cases hsim : areVisuallySimilar db target it.emoji
    · rfl
    · exact absurd hsim hp.2⟩

theorem length_getDistractors_le (sh : List EmojiItem → List EmojiItem)
    (db : Database) (target category : String) (count : Nat) :
    (getDistractors sh db target category count).length ≤ count := by
  unfold getDistractors
  rw [List.length_map]
  exact List.length_take_le _ _

theorem getD_mem {α : Type} (l : List α) (i : Nat) (d : α) (h : i < l.length) :
    l.getD i d ∈ l := by
  rw [List.getD_eq_getElem l d h]
  exact List.getElem_mem h

theorem fix_of_not_emoji (db : Database) (sh : List EmojiItem → List EmojiItem)
    (c : GameContent) (h : c.type ≠ GType.emoji) :
    fixVisuallySimilarEmojis db sh c = c := by
  unfold fixVisuallySimilarEmojis
  rw [if_pos h]

theorem fix_of_not_needsFix (db : Database) (sh : List EmojiItem → List EmojiItem)
    (c : GameContent) (ht : c.type = GType.emoji)
    (h : needsFix db c.targetValue c.distractors = false) :
    fixVisuallySimilarEmojis db sh c = c := by
  unfold fixVisuallySimilarEmojis
  rw [if_neg (fun hne => hne ht)]
  dsimp only
  rw [if_pos (by simp [h])]

theorem fix_eq_category (db : Database) (sh : List EmojiItem → List EmojiItem)
    (c : GameContent) (category : String) (ht : c.type = GType.emoji)
    (hnf : needsFix db c.targetValue c.distractors = true)
    (hcat : getCategoryByEmoji db c.targetValue = some category)
    (hv : 2 ≤ (validCategoryDistractors db c.targetValue category).length) :
    fixVisuallySimilarEmojis db sh c =
      { c with distractors :=
          [((sh (validCategoryDistractors db c.targetValue category)).getD 0 ⟨[], [], ""⟩).emoji,
           ((sh (validCategoryDistractors db c.targetValue category)).getD 1 ⟨[], [], ""⟩).emoji] } := by
  unfold fixVisuallySimilarEmojis
  rw [if_neg (fun hne => hne ht)]
  dsimp only
  rw [if_neg (by simp [hnf]), hcat]
  dsimp only
  rw [if_pos hv]

theorem fix_eq_fallback (db : Database) (sh : List EmojiItem → List EmojiItem)
    (c : GameContent) (ht : c.type = GType.emoji)
    (hnf : needsFix db c.targetValue c.distractors = true)
    (hfb : ∀ category, getCategoryByEmoji db c.targetValue = some category →
      (validCategoryDistractors db c.targetValue category).length < 2) :
    fixVisuallySimilarEmojis db sh c = fixFallback db c := by
  unfold fixVisuallySimilarEmojis
  rw [if_neg (fun hne => hne ht)]
  dsimp only
  rw [if_neg (by simp [hnf])]
  cases hcat : getCategoryByEmoji db c.targetValue with
  | none => rfl
  | some category =>
    dsimp only
    rw [if_neg (by have := hfb category hcat; omega)]

theorem fixFallback_short (db : Database) (c : GameContent)
    (h : (fallbackFiltered db c).length < 2) : fixFallback db c = c := by
  unfold fixFallback
  rw [if_neg (by omega)]

theorem fixFallback_long (db : Database) (c : GameContent)
    (h : 2 ≤ (fallbackFiltered db c).length) :
    fixFallback db c =
      { c with distractors :=
          [(fallbackFiltered db c).getD 0 "", (fallbackFiltered db c).getD 1 ""] } := by
  unfold fixFallback
  rw [if_pos h]

theorem mem_fallbackFiltered (db : Database) (c : GameContent) {x : String}
    (h : x ∈ fallbackFiltered db c) :
    areVisuallySimilar db c.targetValue x = false ∧ x ≠ c.targetValue := by
  unfold fallbackFiltered at h
  rw [List.mem_filter] at h
  obtain ⟨-, hp⟩ := h
  simp only [decide_eq_true_eq] at hp
  exact ⟨by
    cases hx : areVisuallySimilar db c.targetValue x
    · rfl
    · exact absurd hx hp.1, hp.2⟩

theorem mem_validCategoryDistractors (db : Database) (target category : String)
    {it : EmojiItem} (h : it ∈ validCategoryDistractors db target category) :
    it.emoji ≠ target ∧ areVisuallySimilar db target it.emoji = false := by
  unfold validCategoryDistractors at h
  rw [List.mem_filter] at h
  obtain ⟨-, hp⟩ := h
  simp only [decide_eq_true_eq] at hp
  exact ⟨hp.1, by
    cases hx : areVisuallySimilar db target it.emoji
    · rfl
    · exact absurd hx hp.2⟩

theorem fix_category_stable (db : Database) (sh : List EmojiItem → List EmojiItem)
    (category : String) (c' : GameContent) (ht : c'.type = GType.emoji)
    (hcat : getCategoryByEmoji db c'.targetValue = some category)
    (hv : 2 ≤ (validCategoryDistractors db c'.targetValue category).length)
    (hds : c'.distractors =
      [((sh (validCategoryDistractors db c'.targetValue category)).getD 0 ⟨[], [], ""⟩).emoji,
       ((sh (validCategoryDistractors db c'.targetValue category)).getD 1 ⟨[], [], ""⟩).emoji]) :
    fixVisuallySimilarEmojis db sh c' = c' := by
  by_cases hnf2 : needsFix db c'.targetValue c'.distractors = true
  · rw [fix_eq_category db sh c' category ht hnf2 hcat hv]
    cases c'
    dsimp only at hds ⊢
    rw [hds]
  · exact fix_of_not_needsFix db sh c' ht (by simpa using hnf2)

theorem fix_fallback_stable (db : Database) (sh : List EmojiItem → List EmojiItem)
    (c' : GameContent) (ht : c'.type = GType.emoji)
    (hfb : ∀ category, getCategoryByEmoji db c'.targetValue = some category →
      (validCategoryDistractors db c'.targetValue category).length < 2)
    (f0 f1 : String) (hds : c'.distractors = [f0, f1])
    (hp0 : areVisuallySimilar db c'.targetValue f0 = false ∧ f0 ≠ c'.targetValue)
    (hp1 : areVisuallySimilar db c'.targetValue f1 = false ∧ f1 ≠ c'.targetValue) :
    fixVisuallySimilarEmojis db sh c' = c' := by
  by_cases hnf2 : needsFix db c'.targetValue c'.distractors = true
  · rw [fix_eq_fallback db sh c' ht hnf2 hfb]
    have hff : fallbackFiltered db c' = [f0, f1] := by
      unfold fallbackFiltered
      rw [hds]
      rw [List.filter_cons_of_pos (by simp [hp0.1, hp0.2]),
          List.filter_cons_of_pos (by simp [hp1.1, hp1.2])]
      rfl
    rw [fixFallback_long db c' (by rw [hff]; simp), hff]
    cases c'
    dsimp only at hds ⊢
    rw [hds]
    rfl
  · exact fix_of_not_needsFix db sh c' ht (by simpa using hnf2)

theorem fix_idem_fallback_case (db : Database) (sh : List EmojiItem → List EmojiItem)
    (c : GameContent) (ht : c.type = GType.emoji)
    (hnf : needsFix db c.targetValue c.distractors = true)
    (hfb : ∀ category, getCategoryByEmoji db c.targetValue = some category →
      (validCategoryDistractors db c.targetValue category).length < 2) :
    fixVisuallySimilarEmojis db sh (fixVisuallySimilarEmojis db sh c) =
      fixVisuallySimilarEmojis db sh c := by
  rw [fix_eq_fallback db sh c ht hnf hfb]
  by_cases hlen : 2 ≤ (fallbackFiltered db c).length
  · rw [fixFallback_long db c hlen]
    exact fix_fallback_stable db sh _ ht hfb _ _ rfl
      (mem_fallbackFiltered db c (getD_mem _ 0 "" (by omega)))
      (mem_fallbackFiltered db c (getD_mem _ 1 "" (by omega)))
  · rw [fixFallback_short db c (by omega), fix_eq_fallback db sh c ht hnf hfb,
      fixFallback_short db c (by omega)]

theorem candLE_refl (a : Gen.PromotionCandidate) : Gen.candLE a a :=
  Or.inr ⟨rfl, Or.inr ⟨rfl, le_refl _⟩⟩

instance : IsTotal Gen.PromotionCandidate Gen.candLE := by
  constructor
  intro a b
  rcases lt_trichotomy (Gen.nmRank a) (Gen.nmRank b) with h | h | h
  · exact Or.inl (Or.inl h)
  · rcases lt_trichotomy a.synonymScore b.synonymScore with hs | hs | hs
    · exact Or.inr (Or.inr ⟨h.symm, Or.inl hs⟩)
    · rcases le_total a.tts.length b.tts.length with hl | hl
      · exact Or.inl (Or.inr ⟨h, Or.inr ⟨hs, hl⟩⟩)
      · exact Or.inr (Or.inr ⟨h.symm, Or.inr ⟨hs.symm, hl⟩⟩)
    · exact Or.inl (Or.inr ⟨h, Or.inl hs⟩)
  · exact Or.inr (Or.inl h)

instance : IsTrans Gen.PromotionCandidate Gen.candLE := by
  constructor
  intro a b c hab hbc
  rcases hab with h1 | ⟨h1, h1'⟩
  · rcases hbc with h2 | ⟨h2, _⟩
    · exact Or.inl (lt_trans h1 h2)
    · exact Or.inl (h2 ▸ h1)
  · rcases hbc with h2 | ⟨h2, h2'⟩
    · exact Or.inl (h1 ▸ h2)
    · refine Or.inr ⟨h1.trans h2, ?_⟩
      rcases h1' with hs1 | ⟨hs1, hl1⟩
      · rcases h2' with hs2 | ⟨hs2, _⟩
        · exact Or.inl (lt_trans hs2 hs1)
        · exact Or.inl (hs2 ▸ hs1)
      · rcases h2' with hs2 | ⟨hs2, hl2⟩
        · exact Or.inl (by rw [hs1]; exact hs2)
        · exact Or.inr ⟨hs1.trans hs2, hl1.trans hl2⟩

theorem phase3_go_keywords (entries : List Gen.EmojiTestEntry)
    (ld : String → Gen.LocaleData)
    (promo : List (String × List Gen.PromotionCandidate)) :
    ∀ (es : List Gen.EmojiTestEntry) (seen : List String)
      (pairs : List (String × Gen.EmojiItem)),
      Gen.phase3.go entries ld promo es seen = Except.ok pairs →
      ∀ pr ∈ pairs, pr.2.keywords = Gen.itemKeywords entries ld pr.2.emoji := by
  intro es
  induction es with
  | nil =>
    intro seen pairs h pr hpr
    simp only [Gen.phase3.go] at h
    injection h with h
    subst h
    cases hpr
  | cons e rest ih =>
    intro seen pairs h pr hpr
    rw [Gen.phase3.go] at h
    by_cases hv : Gen.isVariant entries e = true
    · rw [if_pos hv] at h
      exact ih seen pairs h pr hpr
    · rw [if_neg hv] at h
      by_cases hseen : e.emoji ∈ seen
      · rw [if_pos hseen] at h
        exact ih seen pairs h pr hpr
      · rw [if_neg hseen] at h
        cases hmap : Gen.mapCategory e.group e.subgroup with
        | error err =>
          rw [hmap] at h
          exact absurd h (by simp)
        | ok category =>
          rw [hmap] at h
          dsimp only at h
          cases hgo : Gen.phase3.go entries ld promo rest (e.emoji :: seen) with
          | error err =>
            rw [hgo] at h
            exact absurd h (by simp)
          | ok rest2 =>
            rw [hgo] at h
            injection h with h
            subst h
            rcases List.mem_cons.mp hpr with h | h
            · subst h
              rfl
            · exact ih _ rest2 hgo pr h

theorem mem_groupByKey_pairs {β : Type} (l : List (String × β)) (k : String)
    (vs : List β) (h : (k, vs) ∈ Gen.groupByKey l) {b : β} (hb : b ∈ vs) :
    (k, b) ∈ l := by
  unfold Gen.groupByKey at h
  rw [List.mem_map] at h
  obtain ⟨key, _, heq⟩ := h
  rw [Prod.mk.injEq] at heq
  obtain ⟨hk, hvs⟩ := heq
  subst hk
  rw [← hvs] at hb
  rw [List.mem_map] at hb
  obtain ⟨p, hp, hpb⟩ := hb
  have hmem := List.mem_of_mem_filter hp
  have hkey := List.of_mem_filter hp
  simp only [decide_eq_true_eq] at hkey
  rw [← hpb, ← hkey]
  exact hmem

theorem itemKeywords_iff (entries : List Gen.EmojiTestEntry)
    (ld : String → Gen.LocaleData) (emoji k : String) :
    k ∈ Gen.itemKeywords entries ld emoji ↔
      k ∈ Gen.collectLocaleKeywords (ld "en") emoji ∧
        ∃ count, Gen.keywordCountOpt entries ld (jsToLower k) = some count ∧
          1 < count ∧ count ≤ 10 := by
  unfold Gen.itemKeywords
  rw [List.mem_filter]
  constructor
  · rintro ⟨hm, hp⟩
    refine ⟨hm, ?_⟩
    cases hopt : Gen.keywordCountOpt entries ld (jsToLower k) with
    | none =>
      rw [hopt] at hp
      exact absurd hp (by simp)
    | some count =>
      rw [hopt] at hp
      simp only [Bool.and_eq_true, decide_eq_true_eq] at hp
      exact ⟨count, rfl, hp.1, hp.2⟩
  · rintro ⟨hm, count, hopt, h1, h2⟩
    refine ⟨hm, ?_⟩
    rw [hopt]
    simp [h1, h2]

theorem phase1b_go_ok (semSim : String → String → ℚ)
    (entries : List Gen.EmojiTestEntry) (ld : String → Gen.LocaleData) :
    ∀ (es : List Gen.EmojiTestEntry) (l : List (String × Gen.PromotionCandidate)),
      Gen.phase1b.go semSim entries ld es = Except.ok l →
      ∀ e ∈ es, Gen.isVariant entries e = false →
        (Gen.mapCategory e.group e.subgroup).isOk = true := by
  intro es
  induction es with
  | nil =>
    intro l _ e he
    cases he
  | cons e0 rest ih =>
    intro l h e he hnv
    rw [Gen.phase1b.go] at h
    by_cases hv : Gen.isVariant entries e0 = true
    · rw [if_pos hv] at h
      rcases List.mem_cons.mp he with heq | hmem
      · subst heq
        rw [hnv] at hv
        cases hv
      · exact ih l h e hmem hnv
    · rw [if_neg hv] at h
      cases hmap : Gen.mapCategory e0.group e0.subgroup with
      | error err =>
        rw [hmap] at h
        exact absurd h (by simp)
      | ok category =>
        rw [hmap] at h
        dsimp only at h
        rcases List.mem_cons.mp he with heq | hmem
        · subst heq
          rw [hmap]
          rfl
        · cases hgo : Gen.phase1b.go semSim entries ld rest with
          | error err =>
            rw [hgo] at h
            exact absurd h (by simp)
          | ok rest2 =>
            exact ih rest2 hgo e hmem hnv

theorem collectShortest_ok_names :
    ∀ (items : List Gen.EmojiItem) (ss : List String),
      Gen.collectShortest items = Except.ok ss →
      ∀ item ∈ items, item.names ≠ [] := by
  intro items
  induction items with
  | nil =>
    intro ss _ item hitem
    cases hitem
  | cons it rest ih =>
    intro ss h item hitem
    rw [Gen.collectShortest] at h
    cases hso : Gen.shortestOf it.names with
    | error err =>
      rw [hso] at h
      exact absurd h (by simp)
    | ok s =>
      rw [hso] at h
      dsimp only at h
      cases hcs : Gen.collectShortest rest with
      | error err =>
        rw [hcs] at h
        exact absurd h (by simp)
      | ok ss2 =>
        rcases List.mem_cons.mp hitem with heq | hmem
        · subst heq
          intro hnil
          rw [hnil] at hso
          simp [Gen.shortestOf] at hso
        · exact ih ss2 hcs item hmem

theorem eq_ok_of_toOption {ε α : Type} (o : Except ε α) (a : α)
    (h : o.toOption = some a) : o = Except.ok a := by
  cases o with
  | error e => simp [Except.toOption] at h
  | ok b =>
    simp [Except.toOption] at h
    rw [h]

/-! ## Claims -/

/-- C1 (amended): for every database, shuffle outcome and word, when
`generateLocalContent` returns non-null emoji-type content, it has exactly
2 distractors and each distractor is not visually similar to the target
and differs from it as a normalized symbol. (The code does NOT enforce
`areVisuallySimilar(d0, d1) = false` between the two distractors
themselves — see the counterexample.) -/
theorem generateLocalContent_emoji_invariants (db : Database)
    (shI : List EmojiItem → List EmojiItem) (shC : List String → List String)
    (hsh : ∀ l : List EmojiItem, (shI l).Perm l)
    (word : String) (c : GameContent)
    (h : generateLocalContent db shI shC word = some c)
    (ht : c.type = GType.emoji) :
    c.distractors.length = 2 ∧
      ∀ d ∈ c.distractors, areVisuallySimilar db c.targetValue d = false ∧
        normalizeEmoji d ≠ normalizeEmoji c.targetValue := by
  unfold generateLocalContent at h
  dsimp only at h
  cases hcss : cssColorOf (jsTrim (jsToLower word)) with
  | some cssColor =>
    rw [hcss] at h
    dsimp only at h
    simp only [Option.some.injEq] at h
    rw [← h] at ht
    exact absurd ht (by simp)
  | none =>
    rw [hcss] at h
    dsimp only at h
    cases hfind : findEmojiByName db (jsTrim (jsToLower word)) with
    | none =>
      rw [hfind] at h
      exact absurd h (by simp)
    | some pr =>
      obtain ⟨emoji, category⟩ := pr
      rw [hfind] at h
      dsimp only at h
      by_cases hlen : (getDistractors shI db emoji category 2).length < 2
      · rw [if_pos hlen] at h
        exact absurd h (by simp)
      · rw [if_neg hlen] at h
        simp only [Option.some.injEq] at h
        subst h
        dsimp only
        have hle := length_getDistractors_le shI db emoji category 2
        refine ⟨by omega, ?_⟩
        intro d hdmem
        obtain ⟨it, _, rfl, hne, hsim⟩ := mem_getDistractors hsh hdmem
        exact ⟨hsim, hne⟩

/-- Witness for C1 at a concrete database and the identity permutation. -/
theorem generateLocalContent_emoji_invariants_witness :
    generateLocalContent dbFlower id id "tree" =
      some ⟨GType.emoji, "🌳", ["🌹", "🌷"]⟩ ∧
    ((⟨GType.emoji, "🌳", ["🌹", "🌷"]⟩ : GameContent).distractors.length = 2 ∧
      ∀ d ∈ (⟨GType.emoji, "🌳", ["🌹", "🌷"]⟩ : GameContent).distractors,
        areVisuallySimilar dbFlower
          (⟨GType.emoji, "🌳", ["🌹", "🌷"]⟩ : GameContent).targetValue d = false ∧
        normalizeEmoji d ≠
          normalizeEmoji (⟨GType.emoji, "🌳", ["🌹", "🌷"]⟩ : GameContent).targetValue) :=
  ⟨by decide,
   generateLocalContent_emoji_invariants dbFlower id id
     (fun l => List.Perm.refl l) "tree" ⟨GType.emoji, "🌳", ["🌹", "🌷"]⟩
     (by decide) (by decide)⟩

/-- Counterexample to C1 as stated: on a database instance (modelled from
the spec and the repository's test fixtures, where 🌹 and 🌷 share the
name "flower" inside the `nature` category), the word "tree" yields emoji
content through the identity shuffle outcome whose two distractors ARE
visually similar to each other. -/
theorem generateLocalContent_emoji_pairwise_cex :
    generateLocalContent dbFlower id id "tree" =
      some ⟨GType.emoji, "🌳", ["🌹", "🌷"]⟩ ∧
    areVisuallySimilar dbFlower "🌹" "🌷" = true := by
  constructor <;> decide

/-- C4 (amended): for a word whose normalization is a key of the compiled
`nameToEmoji` map, is NOT a color-dictionary key and is NOT the override
key "puppy", any non-null result of local generation is emoji-typed with
`targetValue` exactly the `nameToEmoji` resolution. (Color-dictionary
keys and the override key take precedence and can change the target —
see the counterexample.) -/
theorem generateLocalContent_name_resolution (db : Database)
    (shI : List EmojiItem → List EmojiItem) (shC : List String → List String)
    (word emoji : String) (c : GameContent)
    (hcss : cssColorOf (jsTrim (jsToLower word)) = none)
    (hpuppy : normalizeName (jsTrim (jsToLower word)) ≠ "puppy")
    (hname : nameToEmoji db (normalizeName (jsTrim (jsToLower word))) = some emoji)
    (h : generateLocalContent db shI shC word = some c) :
    c.targetValue = emoji ∧ c.type = GType.emoji := by
  unfold generateLocalContent at h
  dsimp only at h
  rw [hcss] at h
  have hfind : findEmojiByName db (jsTrim (jsToLower word)) =
      match emojiToCategory db emoji with
      | none => none
      | some category => some (emoji, category) := by
    unfold findEmojiByName
    dsimp only
    have hov : (NAME_OVERRIDES.find?
        (fun p => p.1 = normalizeName (jsTrim (jsToLower word)))).map (·.2) = none := by
      simp only [NAME_OVERRIDES, List.find?]
      rw [decide_eq_false (fun he => hpuppy he.symm)]
      rfl
    rw [hov]
    dsimp only
    rw [hname]
    rfl
  rw [hfind] at h
  dsimp only at h
  cases hcat : emojiToCategory db emoji with
  | none =>
    rw [hcat] at h
    exact absurd h (by simp)
  | some category =>
    rw [hcat] at h
    dsimp only at h
    by_cases hlen : (getDistractors shI db emoji category 2).length < 2
    · rw [if_pos hlen] at h
      exact absurd h (by simp)
    · rw [if_neg hlen] at h
      simp only [Option.some.injEq] at h
      subst h
      exact ⟨rfl, rfl⟩

/-- Witness for C4: the word "tree" on a concrete database. -/
theorem generateLocalContent_name_resolution_witness :
    cssColorOf (jsTrim (jsToLower "tree")) = none ∧
    normalizeName (jsTrim (jsToLower "tree")) ≠ "puppy" ∧
    nameToEmoji dbFlower (normalizeName (jsTrim (jsToLower "tree"))) = some "🌳" ∧
    ((⟨GType.emoji, "🌳", ["🌹", "🌷"]⟩ : GameContent).targetValue = "🌳" ∧
      (⟨GType.emoji, "🌳", ["🌹", "🌷"]⟩ : GameContent).type = GType.emoji) :=
  ⟨by decide, by decide, by decide,
   generateLocalContent_name_resolution dbFlower id id "tree" "🌳"
     ⟨GType.emoji, "🌳", ["🌹", "🌷"]⟩ (by decide) (by decide) (by decide) (by decide)⟩

/-- Counterexample to C4 as stated: on a database instance (modelled from
the spec's keyword promotion, §4.2) where "orange" is a compiled
`nameToEmoji` key resolving to the tangerine symbol, local generation
returns COLOR content with target "orange" — the color dictionary is
consulted before the name lookup, so the target is not the resolved
symbol. -/
theorem generateLocalContent_name_resolution_cex :
    nameToEmoji dbOrange "orange" = some "🍊" ∧
    generateLocalContent dbOrange id id "orange" =
      some ⟨GType.color, "orange", ["blue", "green"]⟩ ∧
    ("orange" : String) ≠ "🍊" := by
  refine ⟨by decide, by decide, by decide⟩

/-- C3 (amended): for every word mapped by the color dictionary (including
translated aliases), local generation returns color content whose
`targetValue` is the canonical color name with exactly 2 distractors,
each differing from the target and (when the target belongs to a
similarity group — the first listed one, as the code selects it) outside
that group. The two distractors may share a similarity group with EACH
OTHER — see the counterexample. -/
theorem generateLocalContent_color_invariants (db : Database)
    (shI : List EmojiItem → List EmojiItem) (shC : List String → List String)
    (hsh : ∀ l : List String, (shC l).Perm l)
    (word cssColor : String)
    (hcss : cssColorOf (jsTrim (jsToLower word)) = some cssColor) :
    ∃ c, generateLocalContent db shI shC word = some c ∧ c.type = GType.color ∧
      c.targetValue = cssColor ∧ c.distractors.length = 2 ∧
      ∀ d ∈ c.distractors, d ≠ cssColor ∧
        ∀ g, COLOR_GROUPS.find? (fun gr => gr.contains cssColor) = some g →
          d ∉ g := by
  have hmem : cssColor ∈ cssColorValues := by
    unfold cssColorOf at hcss
    cases hf : CSS_COLORS.find? (fun p => p.1 = jsTrim (jsToLower word)) with
    | none => rw [hf] at hcss; exact absurd hcss (by simp)
    | some p =>
      rw [hf] at hcss
      simp only [Option.map_some', Option.some.injEq] at hcss
      exact hcss ▸ List.mem_map_of_mem (·.2) (List.mem_of_find?_eq_some hf)
  have hbig : ∀ v ∈ cssColorValues, 2 ≤ (jsDedup (cssColorValues.filter (fun c =>
      c != v && ((COLOR_GROUPS.find? (fun g => g.contains v)).all
        (fun g => ! g.contains c))))).length := by decide
  refine ⟨⟨GType.color, cssColor, getColorDistractors shC cssColor 2⟩, ?_, rfl, rfl, ?_, ?_⟩
  · unfold generateLocalContent
    dsimp only
    rw [hcss]
  · unfold getColorDistractors
    dsimp only
    rw [List.length_take, (hsh _).length_eq]
    have := hbig cssColor hmem
    omega
  · intro d hd
    unfold getColorDistractors at hd
    dsimp only at hd
    have h1 := List.mem_of_mem_take hd
    have h2 := (hsh _).mem_iff.mp h1
    have h3 := jsDedup_subset _ h2
    rw [List.mem_filter] at h3
    obtain ⟨_, hp⟩ := h3
    rw [Bool.and_eq_true] at hp
    refine ⟨by simpa using hp.1, ?_⟩
    intro g hg
    rw [hg] at hp
    have := hp.2
    simp only [Option.all_some] at this
    simpa using this

/-- Witness for C3: the word "red" and the identity permutation. -/
theorem generateLocalContent_color_invariants_witness :
    cssColorOf (jsTrim (jsToLower "red")) = some "red" ∧
    (∃ c, generateLocalContent [] id id "red" = some c ∧ c.type = GType.color ∧
      c.targetValue = "red" ∧ c.distractors.length = 2 ∧
      ∀ d ∈ c.distractors, d ≠ "red" ∧
        ∀ g, COLOR_GROUPS.find? (fun gr => gr.contains "red") = some g →
          d ∉ g) :=
  ⟨by decide,
   generateLocalContent_color_invariants [] id id (fun l => List.Perm.refl l)
     "red" "red" (by decide)⟩

/-- Counterexample to C3 as stated: the concrete permutation outcome
`cexShuffleC3` of the uniform shuffle (a permutation of the pool `LRed`
that `getColorDistractors` passes to the shuffle for target "red") makes
`generateLocalContent "red"` return the distractors "blue" and "cyan",
which are BOTH members of the same hand-authored similarity group — so
"target and the two distractors are pairwise members of different
similarity groups" fails for the two distractors between themselves. -/
theorem generateLocalContent_color_pairwise_cex :
    (cexShuffleC3 LRed).Perm LRed ∧
    generateLocalContent [] id cexShuffleC3 "red" =
      some ⟨GType.color, "red", ["blue", "cyan"]⟩ ∧
    ["blue", "cyan", "navy", "teal"] ∈ COLOR_GROUPS ∧
    "blue" ∈ (["blue", "cyan", "navy", "teal"] : List String) ∧
    "cyan" ∈ (["blue", "cyan", "navy", "teal"] : List String) := by
  refine ⟨by rw [← List.isPerm_iff]; decide, by decide, by decide, by decide, by decide⟩

/-- C7: confirmed. The Phase 2 winner for a contested keyword is the head
of the stable sort under `candLE`, the ordered tie-break comparator — a
name-match candidate beats a non-name-match one, then a higher semantic
similarity score wins, then a shorter canonical (TTS) label wins: the
winner is a candidate that every candidate is `candLE`-above, and since
`pickWinner` is a pure function of the candidate list, the same input
always yields the same winner. -/
theorem keywordWinners_tiebreak (promo : List (String × List Gen.PromotionCandidate))
    (kw : String) (cands : List Gen.PromotionCandidate)
    (hfind : (promo.find? (fun p => p.1 = kw)).map (·.2) = some cands)
    (hne : cands ≠ []) :
    ∃ w, Gen.pickWinner cands = some w ∧
      Gen.keywordWinnerEmoji promo kw = some w.emoji ∧ w ∈ cands ∧
      ∀ c ∈ cands, Gen.candLE w c := by
  have hperm : (Gen.sortCandidates cands).Perm cands :=
    List.perm_insertionSort _ _
  have hsorted : (Gen.sortCandidates cands).Sorted Gen.candLE :=
    List.sorted_insertionSort _ _
  cases hs : Gen.sortCandidates cands with
  | nil =>
    rw [hs] at hperm
    have := hperm.length_eq
    simp only [List.length_nil] at this
    exact absurd (List.length_eq_zero.mp this.symm) hne
  | cons w rest =>
    rw [hs] at hperm hsorted
    refine ⟨w, ?_, ?_, ?_, ?_⟩
    · unfold Gen.pickWinner
      rw [hs]
      rfl
    · unfold Gen.keywordWinnerEmoji
      rw [hfind]
      simp only [Option.some_bind]
      unfold Gen.pickWinner
      rw [hs]
      rfl
    · exact hperm.mem_iff.mp (List.mem_cons_self w rest)
    · intro cc hcc
      rcases List.mem_cons.mp (hperm.mem_iff.mpr hcc) with h | h
      · subst h
        exact candLE_refl _
      · exact List.rel_of_sorted_cons hsorted _ h

/-- Witness for C7: the contested keyword "cake", where the later-listed
birthday cake wins because the keyword is literally one of its names. -/
theorem keywordWinners_tiebreak_witness :
    (promoC7.find? (fun p => p.1 = "cake")).map (·.2) = some candsC7 ∧
    candsC7 ≠ [] ∧
    (∃ w, Gen.pickWinner candsC7 = some w ∧
      Gen.keywordWinnerEmoji promoC7 "cake" = some w.emoji ∧ w ∈ candsC7 ∧
      ∀ c ∈ candsC7, Gen.candLE w c) :=
  ⟨by decide, by decide,
   keywordWinners_tiebreak promoC7 "cake" candsC7 (by decide) (by decide)⟩

/-- C8: confirmed. In any successful build, for every symbol in the
compiled database and every one of its CLDR keywords, the keyword is
retained in that symbol's similarity-keyword list iff the keyword's
corpus-wide occurrence count (distinct emojis using the lowercased word in
names or keywords) is defined and lies in the open-closed range (1, 10]. -/
theorem buildEmojiDatabase_similarity_keyword_range
    (semSim : String → String → ℚ) (moby : String → Option (List String))
    (entries : List Gen.EmojiTestEntry) (ld : String → Gen.LocaleData)
    (r : Gen.BuildResult)
    (hb : Gen.buildEmojiDatabase semSim moby entries ld = Except.ok r)
    (cat : Gen.EmojiCategory) (hcat : cat ∈ r.database)
    (item : Gen.EmojiItem) (hitem : item ∈ cat.items) (k : String) :
    k ∈ item.keywords ↔
      k ∈ Gen.collectLocaleKeywords (ld "en") item.emoji ∧
        ∃ count, Gen.keywordCountOpt entries ld (jsToLower k) = some count ∧
          1 < count ∧ count ≤ 10 := by
  unfold Gen.buildEmojiDatabase at hb
  cases h1 : Gen.phase1b semSim entries ld with
  | error err =>
    rw [h1] at hb
    exact absurd hb (by simp)
  | ok candidatePairs =>
    rw [h1] at hb
    dsimp only at hb
    cases h2 : Gen.phase3 entries ld (Gen.groupByKey candidatePairs) with
    | error err =>
      rw [h2] at hb
      exact absurd hb (by simp)
    | ok pairs =>
      rw [h2] at hb
      dsimp only at hb
      cases h3 : Gen.shortestNamesOf
          ((Gen.groupByKey pairs).map (fun p => Gen.EmojiCategory.mk p.1 p.2)) with
      | error err =>
        rw [h3] at hb
        exact absurd hb (by simp)
      | ok shortest =>
        rw [h3] at hb
        injection hb with hb
        subst hb
        dsimp only at hcat
        rw [List.mem_map] at hcat
        obtain ⟨kv, hkv, hk⟩ := hcat
        rw [← hk] at hitem
        dsimp only at hitem
        have hpair : (kv.1, item) ∈ pairs :=
          mem_groupByKey_pairs pairs kv.1 kv.2 hkv hitem
        have hkw := phase3_go_keywords entries ld (Gen.groupByKey candidatePairs)
          entries [] pairs h2 (kv.1, item) hpair
        dsimp only at hkw
        rw [hkw]
        exact itemKeywords_iff entries ld item.emoji k

/-- Witness for C8: the keyword "pet", shared by exactly 2 symbols, is
retained in the compiled dog item of a concrete build. -/
theorem buildEmojiDatabase_similarity_keyword_range_witness :
    Gen.buildEmojiDatabase semZero mobyNone entriesC8 ldC8 = Except.ok rC8 ∧
    catC8 ∈ rC8.database ∧ itemC8 ∈ catC8.items ∧
    ("pet" ∈ itemC8.keywords ↔
      "pet" ∈ Gen.collectLocaleKeywords (ldC8 "en") itemC8.emoji ∧
        ∃ count, Gen.keywordCountOpt entriesC8 ldC8 (jsToLower "pet") = some count ∧
          1 < count ∧ count ≤ 10) :=
  ⟨eq_ok_of_toOption _ _ (by decide), by decide, by decide,
   buildEmojiDatabase_similarity_keyword_range semZero mobyNone entriesC8 ldC8
     rC8 (eq_ok_of_toOption _ _ (by decide)) catC8 (by decide) itemC8 (by decide) "pet"⟩

/-- C9 (amended): the build fails whenever a NON-skin-tone-variant entry
has a group/subgroup combination absent from the category table, and a
successful build contains no symbol with an empty names list in any
NON-internal category. (Skin-tone-variant entries are skipped before the
category check, and internal-category symbols can be published with empty
names — see the counterexample.) -/
theorem buildEmojiDatabase_failfast (semSim : String → String → ℚ)
    (moby : String → Option (List String)) (entries : List Gen.EmojiTestEntry)
    (ld : String → Gen.LocaleData) :
    ((∃ e ∈ entries, Gen.isVariant entries e = false ∧
        (Gen.mapCategory e.group e.subgroup).isOk = false) →
      (Gen.buildEmojiDatabase semSim moby entries ld).isOk = false) ∧
    (∀ r, Gen.buildEmojiDatabase semSim moby entries ld = Except.ok r →
      ∀ cat ∈ r.database, Gen.isInternalCategory cat.category = false →
        ∀ item ∈ cat.items, item.names ≠ []) := by
  constructor
  · rintro ⟨e, he, hnv, hbad⟩
    cases hb : Gen.buildEmojiDatabase semSim moby entries ld with
    | error err => rfl
    | ok r =>
      exfalso
      unfold Gen.buildEmojiDatabase at hb
      cases h1 : Gen.phase1b semSim entries ld with
      | error err =>
        rw [h1] at hb
        exact absurd hb (by simp)
      | ok l =>
        have hok := phase1b_go_ok semSim entries ld entries l h1 e he hnv
        rw [hok] at hbad
        cases hbad
  · intro r hb cat hcat hint item hitem
    unfold Gen.buildEmojiDatabase at hb
    cases h1 : Gen.phase1b semSim entries ld with
    | error err =>
      rw [h1] at hb
      exact absurd hb (by simp)
    | ok candidatePairs =>
      rw [h1] at hb
      dsimp only at hb
      cases h2 : Gen.phase3 entries ld (Gen.groupByKey candidatePairs) with
      | error err =>
        rw [h2] at hb
        exact absurd hb (by simp)
      | ok pairs =>
        rw [h2] at hb
        dsimp only at hb
        cases h3 : Gen.shortestNamesOf
            ((Gen.groupByKey pairs).map (fun p => Gen.EmojiCategory.mk p.1 p.2)) with
        | error err =>
          rw [h3] at hb
          exact absurd hb (by simp)
        | ok shortest =>
          rw [h3] at hb
          injection hb with hb
          subst hb
          dsimp only at hcat
          have hflat : item ∈ (((((Gen.groupByKey pairs).map
              (fun p => Gen.EmojiCategory.mk p.1 p.2)).filter
              (fun c => ¬ Gen.isInternalCategory c.category)).map (·.items)).flatten) := by
            rw [List.mem_flatten]
            refine ⟨cat.items, ?_, hitem⟩
            rw [List.mem_map]
            exact ⟨cat, List.mem_filter.mpr ⟨hcat, by simp [hint]⟩, rfl⟩
          exact collectShortest_ok_names _ shortest h3 item hflat

/-- Witness for C9: a non-variant entry with an unmapped group makes the
build fail, and in a successful build a non-internal symbol has a
non-empty names list. -/
theorem buildEmojiDatabase_failfast_witness :
    (∃ e ∈ entriesW9, Gen.isVariant entriesW9 e = false ∧
      (Gen.mapCategory e.group e.subgroup).isOk = false) ∧
    (Gen.buildEmojiDatabase semZero mobyNone entriesW9 ldB).isOk = false ∧
    Gen.buildEmojiDatabase semZero mobyNone entriesA ldA = Except.ok rA ∧
    (⟨"people", [itemA]⟩ : Gen.EmojiCategory) ∈ rA.database ∧
    itemA.names ≠ [] :=
  ⟨by decide,
   (buildEmojiDatabase_failfast semZero mobyNone entriesW9 ldB).1 (by decide),
   eq_ok_of_toOption _ _ (by decide), by decide,
   (buildEmojiDatabase_failfast semZero mobyNone entriesA ldA).2 rA
     (eq_ok_of_toOption _ _ (by decide))
     ⟨"people", [itemA]⟩ (by decide) (by decide) itemA (by decide)⟩

/-- Counterexample to C9 as stated: (a) `entriesA` contains a skin-tone
VARIANT entry whose group/subgroup is absent from the category table, yet
the build succeeds — variants are skipped before the category check; and
(b) the `entriesB` build succeeds while publishing a database containing a
symbol with an EMPTY names list (inside an internal category, which the
shortest-name pass skips). -/
theorem buildEmojiDatabase_failfast_cex :
    (⟨"👋🏻", "1.0", "waving hand: light skin tone", "BadGroup", "bad-sub",
        "fully-qualified"⟩ : Gen.EmojiTestEntry) ∈ entriesA ∧
    (Gen.mapCategory "BadGroup" "bad-sub").isOk = false ∧
    (Gen.buildEmojiDatabase semZero mobyNone entriesA ldA).isOk = true ∧
    ((Gen.buildEmojiDatabase semZero mobyNone entriesB ldB).toOption.map
      (fun r => r.database.any (fun c => c.items.any (fun i => i.names.isEmpty)))) =
      some true :=
  ⟨by decide, by decide, by decide, by decide⟩

/-- C2: `areVisuallySimilar` is symmetric for every pair of strings; it
returns true when the two arguments agree after variation-selector
normalization and are present in the database (presence carrying the data
model's invariant that a stored symbol's names list is non-empty, spec §3);
and it returns false whenever either argument is absent (no entry under
its normalized key). -/
theorem areVisuallySimilar_symm_refl_absent (db : Database) (a b : String) :
    areVisuallySimilar db a b = areVisuallySimilar db b a ∧
    (normalizeEmoji a = normalizeEmoji b →
      (∃ n ns, emojiToNames db a = some (n :: ns)) →
      areVisuallySimilar db a b = true) ∧
    ((emojiToNames db a = none ∨ emojiToNames db b = none) →
      areVisuallySimilar db a b = false) := by
  refine ⟨areVisuallySimilar_comm db a b, ?_, ?_⟩
  · rintro hnorm ⟨n, ns, hns⟩
    unfold areVisuallySimilar
    rw [(emojiToNames_congr db hnorm).symm, hns]
    simp only [List.any_eq_true, decide_eq_true_eq]
    exact ⟨n, List.mem_cons_self _ _, n, List.mem_cons_self _ _, rfl⟩
  · intro habs
    unfold areVisuallySimilar
    rcases habs with h | h
    · rw [h]
    · rw [h]
      cases emojiToNames db a <;> rfl

/-- Witness for C2 at a concrete database: reflexivity on a present symbol
and falseness against an absent one. -/
theorem areVisuallySimilar_symm_refl_absent_witness :
    areVisuallySimilar dbFlower "🌹" "🌹" = true ∧
    areVisuallySimilar dbFlower "🌳" "❓" = false :=
  ⟨(areVisuallySimilar_symm_refl_absent dbFlower "🌹" "🌹").2.1 rfl
      ⟨"rose", ["flower"], by decide⟩,
   (areVisuallySimilar_symm_refl_absent dbFlower "🌳" "❓").2.2
      (Or.inr (by decide))⟩

/-- C6: the Corrector is idempotent — with the shuffle fixed to any
deterministic permutation-producing function, applying
`fixVisuallySimilarEmojis` to its own output returns that output
unchanged. When the second pass still trips the similarity check
(the repaired pair may be similar to each other), it deterministically
recomputes the identical repair. -/
theorem fixVisuallySimilarEmojis_idem (db : Database)
    (sh : List EmojiItem → List EmojiItem)
    (_hsh : ∀ l : List EmojiItem, (sh l).Perm l) (c : GameContent) :
    fixVisuallySimilarEmojis db sh (fixVisuallySimilarEmojis db sh c) =
      fixVisuallySimilarEmojis db sh c := by
  by_cases ht : c.type = GType.emoji
  case neg =>
    have h := fix_of_not_emoji db sh c ht
    rw [h, h]
  case pos =>
  by_cases hnf : needsFix db c.targetValue c.distractors = true
  case neg =>
    have h := fix_of_not_needsFix db sh c ht (by simpa using hnf)
    rw [h, h]
  case pos =>
  cases hcat : getCategoryByEmoji db c.targetValue with
  | some category =>
    by_cases hv : 2 ≤ (validCategoryDistractors db c.targetValue category).length
    · rw [fix_eq_category db sh c category ht hnf hcat hv]
      exact fix_category_stable db sh category _ ht hcat hv rfl
    · refine fix_idem_fallback_case db sh c ht hnf ?_
      intro cat2 hcat2
      rw [hcat] at hcat2
      injection hcat2 with h2
      subst h2
      omega
  | none =>
    refine fix_idem_fallback_case db sh c ht hnf ?_
    intro cat2 hcat2
    rw [hcat] at hcat2
    exact absurd hcat2 (by simp)

/-- Witness for C6: a concrete database, the identity permutation, and
content whose distractors are mutually similar (so the repair path runs). -/
theorem fixVisuallySimilarEmojis_idem_witness :
    fixVisuallySimilarEmojis dbFlower id
        (fixVisuallySimilarEmojis dbFlower id ⟨GType.emoji, "🌳", ["🌹", "🌷"]⟩) =
      fixVisuallySimilarEmojis dbFlower id ⟨GType.emoji, "🌳", ["🌹", "🌷"]⟩ :=
  fixVisuallySimilarEmojis_idem dbFlower id (fun l => List.Perm.refl l)
    ⟨GType.emoji, "🌳", ["🌹", "🌷"]⟩

/-- C5: when local generation misses and the external generative call
either throws or yields no schema-conforming output, `generateGameContent`
returns `none` (NotFound); the `Option` result type carries no error, so
no exception propagates. -/
theorem generateGameContent_fallback_failure (db : Database)
    (shI : List EmojiItem → List EmojiItem) (shC : List String → List String)
    (llm : Except String (Option GameContent)) (word : String)
    (hlocal : generateLocalContent db shI shC word = none)
    (hllm : (∃ e, llm = Except.error e) ∨ llm = Except.ok none) :
    generateGameContent db shI shC llm word = none := by
  unfold generateGameContent
  rw [hlocal]
  rcases hllm with ⟨e, he⟩ | he <;> rw [he]

/-- Witness for C5: a word with no local match and a throwing service call. -/
theorem generateGameContent_fallback_failure_witness :
    generateLocalContent [] id id "xyznonexistent" = none ∧
    generateGameContent [] id id (Except.error "network timeout") "xyznonexistent" = none :=
  ⟨by decide,
   generateGameContent_fallback_failure [] id id (Except.error "network timeout")
     "xyznonexistent" (by decide) (Or.inl ⟨"network timeout", rfl⟩)⟩

/-- C10: the Corrector never changes the `type` or `targetValue` of its
input — on every branch only the `distractors` field may differ. -/
theorem fixVisuallySimilarEmojis_frame (db : Database)
    (shI : List EmojiItem → List EmojiItem) (content : GameContent) :
    (fixVisuallySimilarEmojis db shI content).type = content.type ∧
    (fixVisuallySimilarEmojis db shI content).targetValue = content.targetValue := by
  constructor <;>
    · unfold fixVisuallySimilarEmojis fixFallback
      dsimp only
      repeat' split <;> try rfl

end FindIt
